import Mathlib

/-!
Shallow embedding of the client-side chess room logic of the repository:
role assignment on fetch (`fetchGame`, two variants), move submission
(`onPieceDrop`, two variants), the realtime games-row UPDATE handler
(`onGamesUpdate`), game creation (`createGame` with its 4-digit id
generator), and a sequential transition system over the shared game
record (`Step`).  The external chess rules library is modelled as an
opaque oracle record (`ChessOracle`); all control flow around it is
transcribed from the source.
-/

namespace ChessOnline

/-- The chess library's active color, as returned by its turn query
(the source compares it with the player role strings w and b). -/
inductive TurnColor
  | w
  | b
deriving DecidableEq, Repr

/-- Player role as in src/types.ts: w, b or spectator. -/
inductive Role
  | w
  | b
  | spectator
deriving DecidableEq, Repr

/-- Game status enum of the games table: waiting, active, finished. -/
inductive Status
  | waiting
  | active
  | finished
deriving DecidableEq, Repr

/-- The games row as in src/types.ts (created_at omitted: never read by
the modelled logic).  `none` models a NULL player slot. -/
structure GameRec where
  id : String
  player_white : Option String
  player_black : Option String
  fen : String
  status : Status
  turn : String
deriving DecidableEq, Repr

/-- The move object handed to the rules library: from/to squares and a
promotion character, as built at the move call sites. -/
structure MoveInput where
  from_square : String
  to_square : String
  promotion : Char
deriving DecidableEq, Repr

/-- The external chess rules library (chess.js), modelled as an opaque
oracle over an abstract position type: construction from a FEN string,
FEN serialization, side to move, move application (none when the move is
rejected), and the terminal-position predicates the source consults. -/
structure ChessOracle (Pos : Type) where
  load : String → Pos
  fen : Pos → String
  turn : Pos → TurnColor
  move : Pos → MoveInput → Option Pos
  isCheckmate : Pos → Bool
  isDraw : Pos → Bool
  isStalemate : Pos → Bool
  isThreefoldRepetition : Pos → Bool

/-- The standard starting position string used at creation. -/
def startFen : String :=
  "rnbqkbnr/pppppppp/8/8/8/8/PPPPPPPP/RNBQKBNR w KQkq - 0 1"

/-- Backend writes issued by the role-assignment step of fetchGame:
either update player_white to the given id, or update player_black to
the given id together with status active (exactly the two update
payloads of the source). -/
inductive ClaimWrite
  | setWhite (uid : String)
  | setBlackActive (uid : String)
deriving DecidableEq, Repr

/-- Result of the role-assignment step: the role returned, the locally
stored copy of the record (after any in-place mutation the source does),
and the list of backend update calls issued. -/
structure FetchOutcome where
  role : Role
  localRec : GameRec
  writes : List ClaimWrite
deriving Repr

/-- Role assignment of the first fetchGame variant
(src/pages/GameRoom.tsx lines 35-58): check the two slots for the local
id, else claim white if unset, else claim black (writing status active)
if unset, else spectator.  The claim branches also mutate the local
`data` copy before it is stored. -/
def fetchGame (data : GameRec) (userId : String) : FetchOutcome :=
  if data.player_white = some userId then
    ⟨Role.w, data, []⟩
  else if data.player_black = some userId then
    ⟨Role.b, data, []⟩
  else if data.player_white = none then
    ⟨Role.w, { data with player_white := some userId },
      [ClaimWrite.setWhite userId]⟩
  else if data.player_black = none then
    ⟨Role.b, { data with player_black := some userId, status := Status.active },
      [ClaimWrite.setBlackActive userId]⟩
  else
    ⟨Role.spectator, data, []⟩

/-- Role assignment of the second fetchGame variant
(src/pages/GameRoom.tsx lines 372-384): same role decision and backend
writes, but the fetched `data` is stored unmodified (the claim branches
do not mutate the local copy). -/
def fetchGame2 (data : GameRec) (userId : String) : FetchOutcome :=
  if data.player_white = some userId then
    ⟨Role.w, data, []⟩
  else if data.player_black = some userId then
    ⟨Role.b, data, []⟩
  else if data.player_white = none then
    ⟨Role.w, data, [ClaimWrite.setWhite userId]⟩
  else if data.player_black = none then
    ⟨Role.b, data, [ClaimWrite.setBlackActive userId]⟩
  else
    ⟨Role.spectator, data, []⟩

/-- The JS comparison game.turn() === playerRole between the turn
character and the role string. -/
def turnEqRole : TurnColor → Role → Bool
  | TurnColor.w, Role.w => true
  | TurnColor.b, Role.b => true
  | _, _ => false

/-- The optional-chaining test gameState?.status === s: false when the
local record is still null. -/
def optStatusIs (gs : Option GameRec) (s : Status) : Bool :=
  match gs with
  | some g => decide (g.status = s)
  | none => false

/-- Observable effects of a move submission, in issue order: a UI alert,
the optimistic replacement of the local board mirror, the insert into
the moves table, and the update of the games row. -/
inductive Event (Pos : Type)
  | alert (msg : String)
  | setBoard (p : Pos)
  | insertMove (game_id : String) (from_square : String) (to_square : String)
      (fen_after : String)
  | updateGames (id : String) (fen : String) (status : Status) (turn : String)
deriving DecidableEq, Repr

/-- An event that touches the board mirror or the backend (everything
except a pure UI alert). -/
def isWrite {Pos : Type} : Event Pos → Bool
  | Event.alert _ => false
  | _ => true

/-- No board-mirror change and no persistence call appears in the event
list. -/
def noWrites {Pos : Type} (l : List (Event Pos)) : Prop :=
  ∀ e ∈ l, isWrite e = false

/-- Move submission, first variant (src/pages/GameRoom.tsx lines
128-180): reject spectators, off-turn moves, finished games, and (with
an alert) waiting games; then apply the move with promotion q on a copy
loaded from the current FEN; on success set the board optimistically,
insert the move record, and update the games row with the recomputed
status (finished on checkmate, draw or stalemate) and turn text. -/
def onPieceDrop {Pos : Type} (o : ChessOracle Pos) (playerRole : Role)
    (game : Pos) (gameState : Option GameRec) (gameId : String)
    (sourceSquare targetSquare piece : String) : Bool × List (Event Pos) :=
  if playerRole = Role.spectator then (false, [])
  else if turnEqRole (o.turn game) playerRole = false then (false, [])
  else if optStatusIs gameState Status.finished then (false, [])
  else if optStatusIs gameState Status.waiting then
    (false, [Event.alert "Wait for an opponent to join!"])
  else
    let gameCopy := o.load (o.fen game)
    match o.move gameCopy ⟨sourceSquare, targetSquare, 'q'⟩ with
    | none => (false, [])
    | some moved =>
      let newFen := o.fen moved
      let status :=
        if o.isCheckmate moved || o.isDraw moved || o.isStalemate moved then
          Status.finished
        else Status.active
      let turnText := if o.turn moved = TurnColor.w then "white" else "black"
      (true,
        [Event.setBoard moved,
         Event.insertMove gameId sourceSquare targetSquare newFen,
         Event.updateGames gameId newFen status turnText])

/-- The promotion character built by the second variant:
piece[1]?.toLowerCase() ?? q (the lowercased second character of the
dropped piece string, or q when the string is shorter than two). -/
def promo2 (piece : String) : Char :=
  match piece.toList with
  | _ :: c :: _ => c.toLower
  | _ => 'q'

/-- Move submission, second variant (src/pages/GameRoom.tsx lines
451-502): same shape without the waiting rejection; the promotion sent
to the oracle is `promo2 piece`, and the recomputed status also treats
threefold repetition as finished. -/
def onPieceDrop2 {Pos : Type} (o : ChessOracle Pos) (playerRole : Role)
    (game : Pos) (gameState : Option GameRec) (gameId : String)
    (sourceSquare targetSquare piece : String) : Bool × List (Event Pos) :=
  if playerRole = Role.spectator then (false, [])
  else if turnEqRole (o.turn game) playerRole = false then (false, [])
  else if optStatusIs gameState Status.finished then (false, [])
  else
    let gameCopy := o.load (o.fen game)
    match o.move gameCopy ⟨sourceSquare, targetSquare, promo2 piece⟩ with
    | none => (false, [])
    | some moved =>
      let newFen := o.fen moved
      let status :=
        if o.isCheckmate moved || o.isDraw moved || o.isStalemate moved
            || o.isThreefoldRepetition moved then
          Status.finished
        else Status.active
      let turnText := if o.turn moved = TurnColor.w then "white" else "black"
      (true,
        [Event.setBoard moved,
         Event.insertMove gameId sourceSquare targetSquare newFen,
         Event.updateGames gameId newFen status turnText])

/-- Result of the realtime games UPDATE handler: the stored record, the
board mirror after the functional update, and whether the confetti
effect fired during this push. -/
structure UpdateResult (Pos : Type) where
  gameState : GameRec
  board : Pos
  confettiFired : Bool

/-- Realtime games UPDATE handler (identical in both variants,
src/pages/GameRoom.tsx lines 86-107 and 411-431): store the pushed
record; replace the board mirror by one loaded from the pushed FEN only
when the current mirror serializes to a different string; fire confetti
when the pushed status is finished and the freshly loaded position is
checkmate. -/
def onGamesUpdate {Pos : Type} (o : ChessOracle Pos) (current : Pos)
    (newData : GameRec) : UpdateResult Pos :=
  let newGame := o.load newData.fen
  let board := if o.fen current ≠ newData.fen then newGame else current
  let confettiFired :=
    decide (newData.status = Status.finished) && o.isCheckmate newGame
  ⟨newData, board, confettiFired⟩

/-- Fold a sequence of games-row pushes through the UPDATE handler,
returning the final board mirror and the number of confetti firings. -/
def processPushes {Pos : Type} (o : ChessOracle Pos) (board : Pos)
    (pushes : List GameRec) : Pos × Nat :=
  pushes.foldl
    (fun acc push =>
      let r := onGamesUpdate o acc.1 push
      (r.board, acc.2 + (if r.confettiFired then 1 else 0)))
    (board, 0)

/-- Decimal digits of a natural number, most significant first
(repeated division by ten, as JS Number.prototype.toString renders). -/
def decDigits (n : Nat) : List Nat :=
  if h : n < 10 then [n]
  else decDigits (n / 10) ++ [n % 10]
termination_by n
decreasing_by
  exact Nat.div_lt_self (by omega) (by omega)

/-- Decimal string of a natural number. -/
def decString (n : Nat) : String :=
  String.mk ((decDigits n).map (fun d => Char.ofNat (48 + d)))

/-- The client-side id generator of createGame (src/unnamed/part_000
line 20): Math.floor(1000 + r * 9000).toString() for a random
r in the interval from zero (inclusive) to one (exclusive). -/
def genGameId (r : ℚ) : Nat :=
  (Int.floor ((1000 : ℚ) + r * 9000)).toNat

/-- The games row inserted by createGame (src/unnamed/part_000 lines
24-34): caller as white, black slot absent (null), status waiting,
standard start FEN, turn white. -/
def createdGameRec (userId gameId : String) : GameRec :=
  ⟨gameId, some userId, none, startFen, Status.waiting, "white"⟩

/-- createGame of src/unnamed/part_000: generate the 4-digit id from the
random draw r and insert the fresh record. -/
def createGame (userId : String) (r : ℚ) : String × GameRec :=
  let gameId := decString (genGameId r)
  (gameId, createdGameRec userId gameId)

/-- Rank of a status in the forward order waiting, active, finished. -/
def statusIdx : Status → Nat
  | Status.waiting => 0
  | Status.active => 1
  | Status.finished => 2

/-- One backend mutation of a game record by any client, in the
sequential (atomic read-modify-write) model of the first variant:
the two claim updates of fetchGame and the games update of a move
submission that passed the first variant's preconditions. -/
inductive Step {Pos : Type} (o : ChessOracle Pos) : GameRec → GameRec → Prop
  | claimWhite (g : GameRec) (uid : String)
      (hw : g.player_white = none) (hb : g.player_black ≠ some uid) :
      Step o g { g with player_white := some uid }
  | claimBlack (g : GameRec) (uid wst : String)
      (hw : g.player_white = some wst) (hne : wst ≠ uid)
      (hb : g.player_black = none) :
      Step o g { g with player_black := some uid, status := Status.active }
  | move (g : GameRec) (role : Role) (m : MoveInput) (moved : Pos)
      (hrole : role ≠ Role.spectator)
      (hturn : turnEqRole (o.turn (o.load g.fen)) role = true)
      (hstatus : g.status = Status.active)
      (hmv : o.move (o.load g.fen) m = some moved) :
      Step o g
        { g with
          fen := o.fen moved,
          status :=
            if o.isCheckmate moved || o.isDraw moved || o.isStalemate moved then
              Status.finished
            else Status.active,
          turn := if o.turn moved = TurnColor.w then "white" else "black" }

/-- Record invariant of the sequential model: while the black slot is
unclaimed the game is still waiting. -/
def Inv (g : GameRec) : Prop :=
  g.player_black = none → g.status = Status.waiting

/-- A concrete oracle instance over FEN strings that rejects every
move; used to instantiate universally quantified statements. -/
def oRej : ChessOracle String :=
  ⟨id, id, fun _ => TurnColor.w, fun _ _ => none,
    fun _ => false, fun _ => false, fun _ => false, fun _ => false⟩

/-- A concrete oracle instance over FEN strings that accepts every move
and lands in the position AFTER; no terminal condition holds there. -/
def oAcc : ChessOracle String :=
  ⟨id, id, fun _ => TurnColor.w, fun _ _ => some "AFTER",
    fun _ => false, fun _ => false, fun _ => false, fun _ => false⟩

/-- A concrete oracle instance over FEN strings for a pawn-promotion
square push: the move is accepted exactly when the promotion choice is
the queen character, as the rules library does for a promotion move
carrying an invalid promotion piece. -/
def oProm : ChessOracle String :=
  ⟨id, id, fun _ => TurnColor.w,
    fun _ m => if m.promotion = 'q' then some "AFTER" else none,
    fun _ => false, fun _ => false, fun _ => false, fun _ => false⟩

/-- The position string after the fools mate 1. f3 e5 2. g4 Qh4, a
checkmate. -/
def mateFen : String :=
  "rnb1kbnr/pppp1ppp/8/4p3/6Pq/5P2/PPPPP2P/RNBQKBNR w KQkq - 1 3"

/-- A concrete oracle instance over FEN strings whose checkmate test
recognizes the fools mate position (true of any chess rules library). -/
def oMate : ChessOracle String :=
  ⟨id, id, fun _ => TurnColor.w, fun _ _ => none,
    fun p => p == mateFen, fun _ => false, fun _ => false, fun _ => false⟩

/-- A concrete games row of an active game. -/
def activeRec : GameRec :=
  ⟨"1234", some "alice", some "bob", "POS", Status.active, "white"⟩

/-- A concrete games row of a waiting game whose black slot is still
unclaimed. -/
def waitingRec : GameRec :=
  ⟨"1234", some "alice", none, startFen, Status.waiting, "white"⟩

/-- A concrete games row carrying status finished and the fools mate
position, as pushed after the mating move. -/
def finishedPush : GameRec :=
  ⟨"1234", some "alice", some "bob", mateFen, Status.finished, "black"⟩

/-- A natural number with exactly k plus one decimal digits renders to a
digit list of length k plus one. -/
theorem decDigits_length (k : Nat) :
    ∀ n : Nat, 10 ^ k ≤ n → n < 10 ^ (k + 1) → (decDigits n).length = k + 1 := by
  induction k with
  | zero =>
    intro n h1 h2
    rw [decDigits, dif_pos (by simpa using h2)]
    simp
  | succ k ih =>
    intro n h1 h2
    have hpow : (10 : Nat) ^ 1 ≤ 10 ^ (k + 1) :=
      Nat.pow_le_pow_right (by norm_num) (by omega)
    have h10 : ¬ n < 10 := by simp at hpow; omega
    rw [decDigits, dif_neg h10, List.length_append]
    have hub : n / 10 < 10 ^ (k + 1) := by
      apply Nat.div_lt_of_lt_mul
      calc n < 10 ^ (k + 1 + 1) := h2
        _ = 10 * 10 ^ (k + 1) := by ring
    have hlb : 10 ^ k ≤ n / 10 := by
      rw [Nat.le_div_iff_mul_le (by norm_num)]
      calc 10 ^ k * 10 = 10 ^ (k + 1) := by rw [pow_succ]
        _ ≤ n := h1
    rw [ih (n / 10) hlb hub]
    simp

/-- Every entry of the decimal digit list is a digit below ten. -/
theorem decDigits_lt_ten : ∀ n : Nat, ∀ d ∈ decDigits n, d < 10 := by
  intro n
  induction n using Nat.strong_induction_on with
  | _ n ih =>
    intro d hd
    by_cases h : n < 10
    · rw [decDigits, dif_pos h] at hd
      simp at hd
      omega
    · rw [decDigits, dif_neg h] at hd
      rw [List.mem_append] at hd
      rcases hd with hd | hd
      · exact ih (n / 10) (Nat.div_lt_self (by omega) (by omega)) d hd
      · simp at hd
        omega

/-- Every `Step` of the sequential model preserves the invariant that an
unclaimed black slot implies status waiting. -/
theorem step_inv {Pos : Type} {o : ChessOracle Pos} {g g' : GameRec}
    (h : Step o g g') (hI : Inv g) : Inv g' := by
  cases h with
  | claimWhite uid hw hb =>
    intro hbnone
    exact hI hbnone
  | claimBlack uid wst hw hne hb =>
    intro hbnone
    simp at hbnone
  | move role m moved hrole hturn hstatus hmv =>
    intro hbnone
    have h2 := hI hbnone
    rw [hstatus] at h2
    exact absurd h2 (by decide)

/-- The invariant holds in every record reachable from a freshly created
game by `Step` transitions. -/
theorem reach_inv {Pos : Type} {o : ChessOracle Pos} {g0 g : GameRec}
    (h : Relation.ReflTransGen (Step o) g0 g) (hI : Inv g0) : Inv g := by
  induction h with
  | refl => exact hI
  | tail hsteps hstep ih => exact step_inv hstep ih

/-- Under the invariant, a single `Step` never lowers the status rank. -/
theorem step_mono {Pos : Type} {o : ChessOracle Pos} {g g' : GameRec}
    (hI : Inv g) (h : Step o g g') :
    statusIdx g.status ≤ statusIdx g'.status := by
  cases h with
  | claimWhite uid hw hb => exact le_refl _
  | claimBlack uid wst hw hne hb =>
    rw [hI hb]
    exact Nat.zero_le _
  | move role m moved hrole hturn hstatus hmv =>
    rw [hstatus]
    have hb : ∀ b : Bool,
        (1 : Nat) ≤ statusIdx (if b = true then Status.finished else Status.active) := by
      intro b
      cases b <;> decide
    exact hb _

/-- C5: for every game record, the status field only ever moves forward
along waiting, active, finished under the operations any client performs
(creation writes waiting, the black-slot claim writes active, move
submission writes active or finished): along any sequence of `Step`
transitions from a freshly created record, no operation writes a status
earlier in that order than the record's current status. -/
theorem c5_status_forward {Pos : Type} (o : ChessOracle Pos)
    (uid gid : String) (g g' : GameRec)
    (hreach : Relation.ReflTransGen (Step o) (createdGameRec uid gid) g)
    (hstep : Step o g g') :
    statusIdx g.status ≤ statusIdx g'.status := by
  have hI0 : Inv (createdGameRec uid gid) := fun _ => rfl
  exact step_mono (reach_inv hreach hI0) hstep

/-- Witness for C5: the black-slot claim on a freshly created game moves
the status forward from waiting to active. -/
theorem c5_status_forward_witness :
    statusIdx (createdGameRec "alice" "1234").status ≤
      statusIdx ({ createdGameRec "alice" "1234" with
        player_black := some "bob", status := Status.active } : GameRec).status :=
  c5_status_forward oRej "alice" "1234" _ _ Relation.ReflTransGen.refl
    (Step.claimBlack _ "bob" "alice" rfl (by decide) rfl)

/-- C1: for every fetched game record and local identity, role
assignment returns white or black when the matching slot already holds
the identity (no write); otherwise claims the white slot if unset
(returning white, issuing the white update); otherwise claims the black
slot if unset (returning black, issuing the update that also sets the
status to active); otherwise returns spectator with no write.  Proved
for both fetchGame variants. -/
theorem c1_role_assignment (data : GameRec) (uid : String) :
    (data.player_white = some uid →
      (fetchGame data uid).role = Role.w ∧ (fetchGame data uid).writes = [] ∧
      (fetchGame2 data uid).role = Role.w ∧ (fetchGame2 data uid).writes = []) ∧
    (data.player_white ≠ some uid → data.player_black = some uid →
      (fetchGame data uid).role = Role.b ∧ (fetchGame data uid).writes = [] ∧
      (fetchGame2 data uid).role = Role.b ∧ (fetchGame2 data uid).writes = []) ∧
    (data.player_black ≠ some uid → data.player_white = none →
      (fetchGame data uid).role = Role.w ∧
      (fetchGame data uid).writes = [ClaimWrite.setWhite uid] ∧
      (fetchGame2 data uid).role = Role.w ∧
      (fetchGame2 data uid).writes = [ClaimWrite.setWhite uid]) ∧
    (data.player_white ≠ some uid → data.player_white ≠ none →
      data.player_black = none →
      (fetchGame data uid).role = Role.b ∧
      (fetchGame data uid).writes = [ClaimWrite.setBlackActive uid] ∧
      (fetchGame2 data uid).role = Role.b ∧
      (fetchGame2 data uid).writes = [ClaimWrite.setBlackActive uid]) ∧
    (data.player_white ≠ some uid → data.player_white ≠ none →
      data.player_black ≠ some uid → data.player_black ≠ none →
      (fetchGame data uid).role = Role.spectator ∧
      (fetchGame data uid).writes = [] ∧
      (fetchGame2 data uid).role = Role.spectator ∧
      (fetchGame2 data uid).writes = []) := by
  refine ⟨?_, ?_, ?_, ?_, ?_⟩
  · intro h1
    simp [fetchGame, fetchGame2, h1]
  · intro h1 h2
    simp [fetchGame, fetchGame2, h1, h2]
  · intro h1 h2
    simp [fetchGame, fetchGame2, h1, h2]
  · intro h1 h2 h3
    simp [fetchGame, fetchGame2, h1, h2, h3]
  · intro h1 h2 h3 h4
    simp [fetchGame, fetchGame2, h1, h2, h3, h4]

/-- Witness for C1: a second identity joining a waiting game is assigned
black and the claim update carrying status active is issued, in both
variants. -/
theorem c1_role_assignment_witness :
    (fetchGame waitingRec "bob").role = Role.b ∧
    (fetchGame waitingRec "bob").writes = [ClaimWrite.setBlackActive "bob"] ∧
    (fetchGame2 waitingRec "bob").role = Role.b ∧
    (fetchGame2 waitingRec "bob").writes = [ClaimWrite.setBlackActive "bob"] :=
  (c1_role_assignment waitingRec "bob").2.2.2.1 (by decide) (by decide) rfl

/-- C2: each rejection condition of a move submission — spectator role,
off-turn, finished status, waiting status (first, stricter variant
only), or an oracle-rejected move — independently makes the submission
return false with no board-mirror change and no persistence call, in
both onPieceDrop variants. -/
theorem c2_rejections {Pos : Type} (o : ChessOracle Pos) (role : Role)
    (game : Pos) (gs : Option GameRec) (gid src tgt piece : String) :
    ((role = Role.spectator ∨ turnEqRole (o.turn game) role = false ∨
        optStatusIs gs Status.finished = true ∨
        optStatusIs gs Status.waiting = true ∨
        o.move (o.load (o.fen game)) ⟨src, tgt, 'q'⟩ = none) →
      (onPieceDrop o role game gs gid src tgt piece).1 = false ∧
        noWrites (onPieceDrop o role game gs gid src tgt piece).2) ∧
    ((role = Role.spectator ∨ turnEqRole (o.turn game) role = false ∨
        optStatusIs gs Status.finished = true ∨
        o.move (o.load (o.fen game)) ⟨src, tgt, promo2 piece⟩ = none) →
      (onPieceDrop2 o role game gs gid src tgt piece).1 = false ∧
        noWrites (onPieceDrop2 o role game gs gid src tgt piece).2) := by
  constructor
  · intro h
    simp only [onPieceDrop]
    split_ifs with h1 h2 h3 h4
    · exact ⟨rfl, by simp [noWrites]⟩
    · exact ⟨rfl, by simp [noWrites]⟩
    · exact ⟨rfl, by simp [noWrites]⟩
    · exact ⟨rfl, by simp [noWrites, isWrite]⟩
    · rcases h with h | h | h | h | h
      · exact absurd h h1
      · exact absurd h h2
      · exact absurd h h3
      · exact absurd h h4
      · rw [h]
        exact ⟨rfl, by simp [noWrites]⟩
  · intro h
    simp only [onPieceDrop2]
    split_ifs with h1 h2 h3
    · exact ⟨rfl, by simp [noWrites]⟩
    · exact ⟨rfl, by simp [noWrites]⟩
    · exact ⟨rfl, by simp [noWrites]⟩
    · rcases h with h | h | h | h
      · exact absurd h h1
      · exact absurd h h2
      · exact absurd h h3
      · rw [h]
        exact ⟨rfl, by simp [noWrites]⟩

/-- Witness for C2: a spectator drop is rejected without writes in both
variants. -/
theorem c2_rejections_witness :
    ((onPieceDrop oAcc Role.spectator "POS" (some activeRec)
        "1234" "e2" "e4" "wP").1 = false ∧
      noWrites (onPieceDrop oAcc Role.spectator "POS" (some activeRec)
        "1234" "e2" "e4" "wP").2) ∧
    ((onPieceDrop2 oAcc Role.spectator "POS" (some activeRec)
        "1234" "e2" "e4" "wP").1 = false ∧
      noWrites (onPieceDrop2 oAcc Role.spectator "POS" (some activeRec)
        "1234" "e2" "e4" "wP").2) :=
  ⟨(c2_rejections oAcc Role.spectator "POS" (some activeRec)
      "1234" "e2" "e4" "wP").1 (Or.inl rfl),
   (c2_rejections oAcc Role.spectator "POS" (some activeRec)
      "1234" "e2" "e4" "wP").2 (Or.inl rfl)⟩

/-- C3: a move submission that passes all preconditions and whose move
the oracle accepts returns true, and its event list is exactly the
optimistic board replacement followed by the two persistence calls in
order — the moves insert with source, destination and resulting FEN,
then the games update with the new FEN, the recomputed status (finished
on checkmate, draw or stalemate, plus threefold repetition in the second
variant, else active) and the turn text.  Proved for both variants. -/
theorem c3_legal_move {Pos : Type} (o : ChessOracle Pos) (role : Role)
    (game : Pos) (gs : Option GameRec) (gid src tgt piece : String)
    (moved moved2 : Pos) :
    (role ≠ Role.spectator → turnEqRole (o.turn game) role = true →
      optStatusIs gs Status.finished = false →
      optStatusIs gs Status.waiting = false →
      o.move (o.load (o.fen game)) ⟨src, tgt, 'q'⟩ = some moved →
      onPieceDrop o role game gs gid src tgt piece =
        (true,
          [Event.setBoard moved,
           Event.insertMove gid src tgt (o.fen moved),
           Event.updateGames gid (o.fen moved)
             (if o.isCheckmate moved || o.isDraw moved || o.isStalemate moved
               then Status.finished else Status.active)
             (if o.turn moved = TurnColor.w then "white" else "black")])) ∧
    (role ≠ Role.spectator → turnEqRole (o.turn game) role = true →
      optStatusIs gs Status.finished = false →
      o.move (o.load (o.fen game)) ⟨src, tgt, promo2 piece⟩ = some moved2 →
      onPieceDrop2 o role game gs gid src tgt piece =
        (true,
          [Event.setBoard moved2,
           Event.insertMove gid src tgt (o.fen moved2),
           Event.updateGames gid (o.fen moved2)
             (if o.isCheckmate moved2 || o.isDraw moved2 || o.isStalemate moved2
                 || o.isThreefoldRepetition moved2
               then Status.finished else Status.active)
             (if o.turn moved2 = TurnColor.w then "white" else "black")])) := by
  constructor
  · intro h1 h2 h3 h4 hmv
    simp [onPieceDrop, h1, h2, h3, h4, hmv]
  · intro h1 h2 h3 hmv
    simp [onPieceDrop2, h1, h2, h3, hmv]

/-- Witness for C3: an accepted move on an active game produces the
optimistic board event followed by exactly the moves insert and the
games update, in both variants. -/
theorem c3_legal_move_witness :
    onPieceDrop oAcc Role.w "POS" (some activeRec) "1234" "e2" "e4" "wP" =
      (true,
        [Event.setBoard "AFTER",
         Event.insertMove "1234" "e2" "e4" "AFTER",
         Event.updateGames "1234" "AFTER" Status.active "white"]) ∧
    onPieceDrop2 oAcc Role.w "POS" (some activeRec) "1234" "e2" "e4" "wP" =
      (true,
        [Event.setBoard "AFTER",
         Event.insertMove "1234" "e2" "e4" "AFTER",
         Event.updateGames "1234" "AFTER" Status.active "white"]) :=
  ⟨(c3_legal_move oAcc Role.w "POS" (some activeRec) "1234" "e2" "e4" "wP"
      "AFTER" "AFTER").1 (by decide) rfl rfl rfl rfl,
   (c3_legal_move oAcc Role.w "POS" (some activeRec) "1234" "e2" "e4" "wP"
      "AFTER" "AFTER").2 (by decide) rfl rfl rfl⟩

/-- C4: on a full-record push, when the pushed FEN differs from the
serialization of the current board mirror the mirror is replaced by one
loaded from the pushed FEN, and when the two strings are equal the very
same mirror object is retained. -/
theorem c4_push_reconciliation {Pos : Type} (o : ChessOracle Pos)
    (current : Pos) (newData : GameRec) :
    (o.fen current ≠ newData.fen →
      (onGamesUpdate o current newData).board = o.load newData.fen) ∧
    (o.fen current = newData.fen →
      (onGamesUpdate o current newData).board = current) := by
  constructor
  · intro h
    simp [onGamesUpdate, h]
  · intro h
    simp [onGamesUpdate, h]

/-- Witness for C4: a differing push replaces the mirror, an identical
push keeps it. -/
theorem c4_push_reconciliation_witness :
    (onGamesUpdate oRej "POS" finishedPush).board = oRej.load finishedPush.fen ∧
    (onGamesUpdate oRej mateFen finishedPush).board = mateFen :=
  ⟨(c4_push_reconciliation oRej "POS" finishedPush).1 (by decide),
   (c4_push_reconciliation oRej mateFen finishedPush).2 rfl⟩

/-- Counterexample for C6: in the second fetchGame variant, a second
identity joining a waiting game is assigned black, yet the locally
stored record copy does not reflect the claim — its black slot is still
unset and its status still waiting — contradicting the claim that every
slot claim is already reflected in the locally held copy. -/
theorem c6_counterexample :
    (fetchGame2 waitingRec "bob").role = Role.b ∧
    ¬ ((fetchGame2 waitingRec "bob").localRec.player_black = some "bob" ∧
       (fetchGame2 waitingRec "bob").localRec.status = Status.active) := by
  decide

/-- C6 amended: in the first fetchGame variant, a claim of an empty slot
is reflected immediately in the locally stored record copy — a white
claim stores the local identity in the white slot, and a black claim
stores it in the black slot together with status active. -/
theorem c6_amended_local_claim (data : GameRec) (uid : String) :
    (data.player_black ≠ some uid → data.player_white = none →
      (fetchGame data uid).localRec.player_white = some uid) ∧
    (data.player_white ≠ some uid → data.player_white ≠ none →
      data.player_black = none →
      (fetchGame data uid).localRec.player_black = some uid ∧
      (fetchGame data uid).localRec.status = Status.active) := by
  constructor
  · intro h1 h2
    simp [fetchGame, h1, h2]
  · intro h1 h2 h3
    simp [fetchGame, h1, h2, h3]

/-- Witness for C6 amended: the black claim in the first variant is
reflected in the locally stored copy. -/
theorem c6_amended_local_claim_witness :
    (fetchGame waitingRec "bob").localRec.player_black = some "bob" ∧
    (fetchGame waitingRec "bob").localRec.status = Status.active :=
  (c6_amended_local_claim waitingRec "bob").2 (by decide) (by decide) rfl

/-- Counterexample for C7: two successive pushes both carrying status
finished and the same checkmate position — a single transition into
finished-with-checkmate — fire the confetti effect twice, because the
handler has no one-shot guard; the claim demands it fire exactly once
and not again on a subsequent push that still carries status
finished. -/
theorem c7_counterexample :
    (processPushes oMate startFen [finishedPush, finishedPush]).2 = 2 ∧
    (2 : Nat) ≠ 1 := by
  constructor
  · decide
  · decide

/-- C7 amended: on each full-record push, the confetti effect fires
exactly when the pushed status is finished and the position loaded from
the pushed FEN is checkmate — never on a draw — but it fires on every
such push: there is no guard limiting it to one firing per transition
into finished. -/
theorem c7_amended_per_push {Pos : Type} (o : ChessOracle Pos)
    (current : Pos) (push : GameRec) :
    (onGamesUpdate o current push).confettiFired = true ↔
      (push.status = Status.finished ∧
        o.isCheckmate (o.load push.fen) = true) := by
  simp [onGamesUpdate]

/-- C8: every game-creation call inserts a record with status waiting,
an unset black slot, the caller in the white slot, the standard starting
position string, and turn white. -/
theorem c8_creation_record (uid : String) (r : ℚ) :
    (createGame uid r).2.status = Status.waiting ∧
    (createGame uid r).2.player_black = none ∧
    (createGame uid r).2.player_white = some uid ∧
    (createGame uid r).2.fen =
      "rnbqkbnr/pppppppp/8/8/8/8/PPPPPPPP/RNBQKBNR w KQkq - 0 1" ∧
    (createGame uid r).2.turn = "white" :=
  ⟨rfl, rfl, rfl, rfl, rfl⟩

/-- C9 (bug evidence): the second variant's promotion character for an
unspecified pawn drop "wP" is p — the lowercased letter of the moving
piece — not the queen character q that its own inline comment and the
claim require; with an oracle that (like the rules library) accepts the
promotion move only under promotion q, the second variant rejects the
drop while the first variant, which always sends q, accepts it. -/
theorem c9_promotion_bug :
    promo2 "wP" = 'p' ∧ promo2 "wP" ≠ 'q' ∧
    (onPieceDrop2 oProm Role.w "POS" (some activeRec)
      "1234" "e7" "e8" "wP").1 = false ∧
    (onPieceDrop oProm Role.w "POS" (some activeRec)
      "1234" "e7" "e8" "wP").1 = true := by
  refine ⟨rfl, by decide, ?_, ?_⟩ <;> decide

/-- C10: for every random draw r with 0 ≤ r < 1, the game identifier
generated client-side at creation is the decimal string of an integer
between 1000 and 9999 inclusive, hence always a 4-character string of
decimal digits. -/
theorem c10_game_id (uid : String) (r : ℚ) (h0 : 0 ≤ r) (h1 : r < 1) :
    1000 ≤ genGameId r ∧ genGameId r ≤ 9999 ∧
    (createGame uid r).1 = decString (genGameId r) ∧
    (decString (genGameId r)).length = 4 ∧
    ∀ c ∈ (decString (genGameId r)).toList, c.isDigit = true := by
  have hfl : (1000 : ℤ) ≤ Int.floor ((1000 : ℚ) + r * 9000) := by
    rw [Int.le_floor]
    push_cast
    nlinarith [mul_nonneg h0 (by norm_num : (0 : ℚ) ≤ 9000)]
  have hfu : Int.floor ((1000 : ℚ) + r * 9000) < 10000 := by
    rw [Int.floor_lt]
    push_cast
    nlinarith
  have hlo : 1000 ≤ genGameId r := by
    unfold genGameId
    omega
  have hhi : genGameId r ≤ 9999 := by
    unfold genGameId
    omega
  refine ⟨hlo, hhi, rfl, ?_, ?_⟩
  · have := decDigits_length 3 (genGameId r) (by norm_num; omega) (by norm_num; omega)
    simpa [decString] using this
  · intro c hc
    simp only [decString, String.toList, String.mk] at hc
    rw [List.mem_map] at hc
    obtain ⟨d, hd, hcd⟩ := hc
    have hdlt := decDigits_lt_ten (genGameId r) d hd
    subst hcd
    interval_cases d <;> decide

/-- Witness for C10: the draw r equal to zero yields identifier 1000,
a 4-character digit string. -/
theorem c10_game_id_witness :
    1000 ≤ genGameId 0 ∧ genGameId 0 ≤ 9999 ∧
    (createGame "alice" 0).1 = decString (genGameId 0) ∧
    (decString (genGameId 0)).length = 4 ∧
    ∀ c ∈ (decString (genGameId 0)).toList, c.isDigit = true :=
  c10_game_id "alice" 0 (by decide) (by decide)

end ChessOnline
